import Mathlib

/-!
Verification of the descriptor-ring buffer-handoff protocol of an
i.MX RT Ethernet MAC driver (`imxrt-enet`).

The development shallowly embeds the driver's buffer-descriptor code:

* `src/bd/txbd.rs` and `src/bd/rxbd.rs` fix the transmit and receive
  buffer-descriptor layouts and their flag bitfields; here each descriptor
  is a structure of natural-number register values and the bitfields are
  mask/offset constants, exactly as generated by the source's `bdfields!`
  macro (`mask = ((1 << bits) - 1) << offset`).
* `src/bd.rs` provides `IoBuffers::new` / `take` (ring initialization),
  `IoSlices::next_impl` / `next_token` (the claim protocol) and the
  `TxToken` / `RxToken` `consume` implementations (the handoff protocol).
  Stateful code becomes explicit state passing over `RingState`; a Rust
  panic (`assert!`, `unwrap`, remainder by zero) becomes the `Panics.panicked`
  value; the byte memory backing the data buffers is an explicit
  byte-addressed map, and a caller closure `FnOnce(&mut [u8]) -> R` is
  modelled as a pure function from the byte view to the result paired with
  the bytes it leaves in the buffer.
* `src/lib.rs` provides `Enet::receive` and the `TxReady` / `RxReady`
  doorbell notifiers; a doorbell register write (`TDAR` / `RDAR`) is
  modelled as incrementing a per-ring doorbell counter.
-/

/-! ## Register-access-layer semantics

The source reads and writes descriptor fields with `ral_registers`
macros. `read_reg!(mod, reg, field)` evaluates `(reg & mask) >> offset`;
`modify_reg!(mod, reg, field: v)` writes
`(reg & !mask) | ((v << offset) & mask)`. Registers are 16- or 32-bit
wide; `maskComplement` complements a mask within the register width. -/

/-- Read a bitfield: `(reg & mask) >> offset`, as `read_reg!` does. -/
def readField (reg mask off : Nat) : Nat :=
  (reg &&& mask) >>> off

/-- Complement of a field mask within a `width`-bit register. -/
def maskComplement (width mask : Nat) : Nat :=
  (2 ^ width - 1) ^^^ mask

/-- Read-modify-write of one bitfield, as `modify_reg!` does:
`(reg & !mask) | ((v << offset) & mask)` on a `width`-bit register. -/
def modifyField (width reg mask off v : Nat) : Nat :=
  (reg &&& maskComplement width mask) ||| ((v <<< off) &&& mask)

/-! ## Descriptor layouts (`src/bd/txbd.rs`, `src/bd/rxbd.rs`)

Only the registers of each descriptor are modelled (reserved padding
carries no data). Field values are natural numbers standing for the
16-bit (or, for `data_buffer_pointer`, 32-bit) register contents. -/

/-- Enhanced transmit buffer descriptor (`txbd.rs`). -/
structure TxBD where
  data_length : Nat
  flags : Nat
  data_buffer_pointer : Nat
  errors : Nat
  control : Nat
  launch_time : Nat
  last_bdu : Nat
  timestamp_1588 : Nat
deriving Repr, DecidableEq

/-- Enhanced receive buffer descriptor (`rxbd.rs`). -/
structure RxBD where
  data_length : Nat
  flags : Nat
  data_buffer_pointer : Nat
  status : Nat
  control : Nat
  checksum : Nat
  header : Nat
  last_bdu : Nat
  timestamp_1588 : Nat
deriving Repr, DecidableEq

/-- A zeroed transmit descriptor (`MaybeUninit::zeroed`). -/
def TxBD.zero : TxBD := ⟨0, 0, 0, 0, 0, 0, 0, 0⟩

/-- A zeroed receive descriptor (`MaybeUninit::zeroed`). -/
def RxBD.zero : RxBD := ⟨0, 0, 0, 0, 0, 0, 0, 0, 0⟩

/-! Flag bitfields of `txbd::flags` (`txbd.rs`): `ready` at bit 15,
`wrap` at bit 13, `last_in` at bit 11, `transmit_crc` at bit 10;
all one bit wide. -/

def txReadyOffset : Nat := 15
def txReadyMask : Nat := ((1 <<< 1) - 1) <<< 15
def txWrapOffset : Nat := 13
def txWrapMask : Nat := ((1 <<< 1) - 1) <<< 13
def txLastInOffset : Nat := 11
def txLastInMask : Nat := ((1 <<< 1) - 1) <<< 11
def txTransmitCrcOffset : Nat := 10
def txTransmitCrcMask : Nat := ((1 <<< 1) - 1) <<< 10

/-! Flag bitfields of `rxbd::flags` (`rxbd.rs`): `empty` at bit 15,
`wrap` at bit 13; one bit wide. -/

def rxEmptyOffset : Nat := 15
def rxEmptyMask : Nat := ((1 <<< 1) - 1) <<< 15
def rxWrapOffset : Nat := 13
def rxWrapMask : Nat := ((1 <<< 1) - 1) <<< 13

/-! ## Panic-aware results

A Rust panic (failed `assert!`, `Option::unwrap` on `None`, or integer
remainder by zero) aborts the program; `Panics.panicked` is that outcome,
`Panics.value` the normal one. -/

inductive Panics (α : Type u) where
  | panicked : Panics α
  | value : α → Panics α
deriving Repr

/-- A `Panics` computation that did not panic. -/
def Panics.isValue : Panics α → Bool
  | .panicked => false
  | .value _ => true

/-! ## Ring state

`IoSlices` (the ring-cursor view) holds a mutable slice of descriptors,
the MTU and the current index (`bd.rs`, `IoSlices`). The model adds the
byte memory holding the data buffers and the count of doorbell register
writes fired by the ring's notifier (`TxReady` / `RxReady` in `lib.rs`
each perform exactly one `TDAR` / `RDAR` register write per `consume`). -/

structure RingState (D : Type) where
  ring : List D
  mtu : Nat
  index : Nat
  mem : Nat → Nat
  bells : Nat

/-- The data an `IoToken` captures at claim time (`bd.rs`, `IoToken`):
the claimed descriptor's index (standing for the `&mut D` borrow), the
precomputed next cursor value, and the MTU. The `&mut usize` index cell
and the `ready` notifier live in the `RingState`. -/
structure IoTokenData where
  index : Nat
  next : Nat
  mtu : Nat
deriving Repr, DecidableEq

/-! ## Claim protocol (`IoSlices::next_impl`, `bd.rs` lines 176-196)

```text
let next = (self.index + 1) % self.ring.len();
let descriptor = self.ring.get_mut(self.index).unwrap();
if check(descriptor) { Some(IoToken { .. }) } else { None }
```

`%` panics when `self.ring.len() == 0`; `unwrap` panics when the index
is out of range. The function performs no writes: the returned state is
the input state. -/

def nextImpl (check : D → Bool) (s : RingState D) :
    Panics (Option IoTokenData × RingState D) :=
  if s.ring.length = 0 then
    .panicked
  else
    let next := (s.index + 1) % s.ring.length
    match s.ring[s.index]? with
    | none => .panicked
    | some descriptor =>
      if check descriptor then
        .value (some ⟨s.index, next, s.mtu⟩, s)
      else
        .value (none, s)

/-- Claim check of a receive ring (`ReceiveSlices::next_token`):
`read_reg!(rxbd, rxbd, flags, empty == 0)`. -/
def rxCheck (d : RxBD) : Bool :=
  readField d.flags rxEmptyMask rxEmptyOffset == 0

/-- Claim check of a transmit ring (`TransmitSlices::next_token`):
`read_reg!(txbd, txbd, flags, ready == 0)`. -/
def txCheck (d : TxBD) : Bool :=
  readField d.flags txReadyMask txReadyOffset == 0

/-- `ReceiveSlices::next_token` (`bd.rs` lines 209-216). -/
def rxNextToken (s : RingState RxBD) :
    Panics (Option IoTokenData × RingState RxBD) :=
  nextImpl rxCheck s

/-- `TransmitSlices::next_token` (`bd.rs` lines 218-225). -/
def txNextToken (s : RingState TxBD) :
    Panics (Option IoTokenData × RingState TxBD) :=
  nextImpl txCheck s

/-! ## Handoff protocol (`TxToken::consume`, `RxToken::consume`)

A caller closure `FnOnce(&mut [u8]) -> R` becomes
`f : List Nat → R × List Nat`: it receives the byte view and returns its
result together with the bytes it leaves in the (in-place mutated)
buffer. The view of `len` bytes at buffer address `ptr` is
`(List.range' ptr len).map s.mem`; writing the buffer back updates `mem`
on exactly the addresses `[ptr, ptr + len)`. -/

/-- Byte view of `len` bytes of memory starting at address `ptr`
(`core::slice::from_raw_parts_mut(ptr, len)`). -/
def byteView (mem : Nat → Nat) (ptr len : Nat) : List Nat :=
  (List.range' ptr len).map mem

/-- Memory after the caller's in-place mutation of the view is committed
back to addresses `[ptr, ptr + len)`. -/
def writeBack (mem : Nat → Nat) (ptr len : Nat) (bytes : List Nat) : Nat → Nat :=
  fun a => if ptr ≤ a ∧ a < ptr + len then bytes.getD (a - ptr) 0 else mem a

/-- The single combined flag update of `TxToken::consume`
(`modify_reg!(txbd, self.descriptor, flags, ready: 1, last_in: 1,
transmit_crc: 1)`): clear the three field masks, then set each field. -/
def txFlagsHandoff (reg : Nat) : Nat :=
  (reg &&& maskComplement 16 (txReadyMask ||| txLastInMask ||| txTransmitCrcMask))
    ||| ((1 <<< txReadyOffset) &&& txReadyMask)
    ||| ((1 <<< txLastInOffset) &&& txLastInMask)
    ||| ((1 <<< txTransmitCrcOffset) &&& txTransmitCrcMask)

/-- `TxToken::consume` (`bd.rs` lines 227-256).

```text
assert!(len <= self.mtu);
let ptr = read_reg!(txbd, self.descriptor, data_buffer_pointer);
let buffer = from_raw_parts_mut(ptr, len);
let result = f(buffer);
fence(SeqCst);                       -- no-op in this sequential model
write_reg!(txbd, self.descriptor, data_length, len as _);
modify_reg!(txbd, self.descriptor, flags, ready: 1, last_in: 1, transmit_crc: 1);
self.ready.consume();                -- one TDAR doorbell write
*self.index = self.next;
result
```

The token's `&mut D` borrow is always valid in the source; the model
recovers the descriptor through the token's index and treats a failed
lookup as a panic (unreachable for tokens produced by `next_impl`). -/
def txConsume {R : Type u} (s : RingState TxBD) (t : IoTokenData) (len : Nat)
    (f : List Nat → R × List Nat) : Panics (R × RingState TxBD) :=
  if len ≤ t.mtu then
    match s.ring[t.index]? with
    | none => .panicked
    | some d =>
      let ptr := d.data_buffer_pointer
      let view := byteView s.mem ptr len
      let d1 : TxBD := { d with data_length := len % 2 ^ 16 }
      let d2 : TxBD := { d1 with flags := txFlagsHandoff d1.flags }
      .value ((f view).1,
        { ring := s.ring.set t.index d2
          mtu := s.mtu
          index := t.next
          mem := writeBack s.mem ptr len (f view).2
          bells := s.bells + 1 })
  else
    .panicked

/-- `RxToken::consume` (`bd.rs` lines 258-279).

```text
let len = read_reg!(rxbd, self.descriptor, data_length) as usize;
assert!(len <= self.mtu);
let ptr = read_reg!(rxbd, self.descriptor, data_buffer_pointer);
let buffer = from_raw_parts_mut(ptr, len);
let result = f(buffer);
modify_reg!(rxbd, self.descriptor, flags, empty: 1);
self.ready.consume();                -- one RDAR doorbell write
*self.index = self.next;
result
```
-/
def rxConsume {R : Type u} (s : RingState RxBD) (t : IoTokenData)
    (f : List Nat → R × List Nat) : Panics (R × RingState RxBD) :=
  match s.ring[t.index]? with
  | none => .panicked
  | some d =>
    let len := d.data_length
    if len ≤ t.mtu then
      let ptr := d.data_buffer_pointer
      let view := byteView s.mem ptr len
      let d1 : RxBD :=
        { d with flags := modifyField 16 d.flags rxEmptyMask rxEmptyOffset 1 }
      .value ((f view).1,
        { ring := s.ring.set t.index d1
          mtu := s.mtu
          index := t.next
          mem := writeBack s.mem ptr len (f view).2
          bells := s.bells + 1 })
    else
      .panicked

/-! ## Buffer sets (`IoBuffers`, `bd.rs` lines 70-149)

`IoBuffers::new` is `const`; instantiating it forces the compile-time
assertion `MTU % 16 == 0`. The model turns that rejected instantiation
into `none`. `take` (one per descriptor kind) zero-initializes the ring,
programs each descriptor's `data_buffer_pointer` with its paired
buffer's address, sets per-kind ownership bits and the wrap bit on the
last descriptor, and returns the cursor view with index 0. -/

/-- Outcome of instantiating `IoBuffers::<D, COUNT, MTU>::new()`: the
`const` assertion `MTU % 16 == 0` rejects non-conforming MTUs at compile
time; a conforming instantiation records the two const generics. -/
def ioBuffersNew (count mtu : Nat) : Option (Nat × Nat) :=
  if mtu % 16 = 0 then some (count, mtu) else none

/-- Address of data buffer `i` in the statically allocated
`[DataBuffer<MTU>; COUNT]` array starting at `base`: `DataBuffer` is
`#[repr(align(64))]` around `[u8; MTU]`, so consecutive elements are
spaced by `MTU` rounded up to a multiple of 64. -/
def bufferAddr (base mtu i : Nat) : Nat :=
  base + i * ((mtu + 63) / 64 * 64)

/-- `descriptors.last_mut()` followed by a mutation when it is `Some`:
modify the element at position `i` when it exists, otherwise leave the
list unchanged. -/
def modifyAt (l : List α) (i : Nat) (f : α → α) : List α :=
  match l[i]? with
  | some x => l.set i (f x)
  | none => l

/-- `IoBuffers::<TxBD, COUNT, MTU>::take` (`bd.rs` lines 107-126): every
descriptor is zero-filled by `DescriptorRing::init`, then
`write_reg!(txbd, descriptor, data_buffer_pointer, buffer.as_mut_ptr() as _)`
stores each paired buffer's address (a 32-bit register), and
`modify_reg!(txbd, descriptor, flags, wrap: 1)` runs on the last
descriptor if one exists. The cursor starts at index 0; buffers are
zero-filled by `new`; no doorbell has fired. -/
def txTake (count mtu base : Nat) : RingState TxBD :=
  let ring := (List.range count).map fun i =>
    { TxBD.zero with data_buffer_pointer := bufferAddr base mtu i % 2 ^ 32 }
  let ring := modifyAt ring (count - 1) fun d =>
    { d with flags := modifyField 16 d.flags txWrapMask txWrapOffset 1 }
  { ring := ring, mtu := mtu, index := 0, mem := fun _ => 0, bells := 0 }

/-- `IoBuffers::<RxBD, COUNT, MTU>::take` (`bd.rs` lines 128-149): as
the transmit variant, but each descriptor additionally gets
`write_reg!(rxbd, descriptor, flags, empty: 1)` — a whole-register write
that sets the `empty` field and zeroes all other flags. -/
def rxTake (count mtu base : Nat) : RingState RxBD :=
  let ring := (List.range count).map fun i =>
    { RxBD.zero with
        data_buffer_pointer := bufferAddr base mtu i % 2 ^ 32
        flags := (1 <<< rxEmptyOffset) &&& rxEmptyMask }
  let ring := modifyAt ring (count - 1) fun d =>
    { d with flags := modifyField 16 d.flags rxWrapMask rxWrapOffset 1 }
  { ring := ring, mtu := mtu, index := 0, mem := fun _ => 0, bells := 0 }

/-! ## The device (`Enet`, `lib.rs`)

`Enet` owns the transmit and receive ring cursors. `receive` claims a
transmit token first (`?` propagates `None`), then a receive token, and
yields the pair `(rx, tx)`; a transmit token claimed and then dropped by
the second `?` has no effect, since claiming performs no writes and
`IoToken` has no `Drop` implementation. -/

structure EnetState where
  tx : RingState TxBD
  rx : RingState RxBD

/-- `Enet::receive` (`lib.rs` lines 331-338):

```text
let tx = self.tx_ring.next_token(TxReady { enet: &self.enet })?;
let rx = self.rx_ring.next_token(RxReady { enet: &self.enet })?;
Some((rx, tx))
```
-/
def enetReceive (e : EnetState) :
    Panics (Option (IoTokenData × IoTokenData) × EnetState) :=
  match txNextToken e.tx with
  | .panicked => .panicked
  | .value (none, tx1) => .value (none, { e with tx := tx1 })
  | .value (some txT, tx1) =>
    match rxNextToken e.rx with
    | .panicked => .panicked
    | .value (none, rx1) => .value (none, { tx := tx1, rx := rx1 })
    | .value (some rxT, rx1) => .value (some (rxT, txT), { tx := tx1, rx := rx1 })

/-! ## Operation traces (for the FIFO ordering property)

A trace interleaves successful claim/consume cycles, failed claims
(backpressure) and hardware activity. A `claim` step is a successful
`next_token` followed by a successful `consume` and records the claimed
index; a `failed` step is a `next_token` that returned `None`; a `hw`
step lets the DMA engine rewrite descriptors and buffer memory in any
way that keeps the ring's size (hardware never touches the software
cursor or fires the software-side doorbell). -/

/-- One successful `TxToken::consume` taking the ring from `s` to `s1`
(for some declared length, caller function and result). -/
def TxConsumes (s : RingState TxBD) (t : IoTokenData) (s1 : RingState TxBD) : Prop :=
  ∃ (len : Nat) (f : List Nat → Nat × List Nat) (r : Nat),
    txConsume s t len f = .value (r, s1)

/-- One successful `RxToken::consume` taking the ring from `s` to `s1`. -/
def RxConsumes (s : RingState RxBD) (t : IoTokenData) (s1 : RingState RxBD) : Prop :=
  ∃ (f : List Nat → Nat × List Nat) (r : Nat),
    rxConsume s t f = .value (r, s1)

/-- Traces of `next_token` / `consume` operations on one ring,
recording the index of every successful claim. -/
inductive RingOps {D : Type} (check : D → Bool)
    (con : RingState D → IoTokenData → RingState D → Prop) :
    RingState D → List Nat → RingState D → Prop where
  | nil (s : RingState D) : RingOps check con s [] s
  | hw (s : RingState D) (ring' : List D) (mem' : Nat → Nat) (xs : List Nat)
      (s' : RingState D) :
      ring'.length = s.ring.length →
      RingOps check con { s with ring := ring', mem := mem' } xs s' →
      RingOps check con s xs s'
  | failed (s : RingState D) (xs : List Nat) (s' : RingState D) :
      nextImpl check s = .value (none, s) →
      RingOps check con s xs s' →
      RingOps check con s xs s'
  | claim (s : RingState D) (t : IoTokenData) (s1 : RingState D) (xs : List Nat)
      (s' : RingState D) :
      nextImpl check s = .value (some t, s) →
      con s t s1 →
      RingOps check con s1 xs s' →
      RingOps check con s (s.index :: xs) s'

/-! ## Concrete demonstration states

Small concrete ring states used to instantiate the theorems below on
explicit inputs. -/

/-- A freshly taken one-descriptor transmit ring with MTU 16. -/
def txDemo : RingState TxBD := txTake 1 16 0

/-- A freshly taken two-descriptor transmit ring with MTU 16. -/
def txDemo2 : RingState TxBD := txTake 2 16 0

/-- A one-descriptor receive ring whose descriptor the hardware has
filled: 5 bytes at buffer address 100, `empty` bit cleared. -/
def rxFilled : RingState RxBD :=
  { ring := [{ RxBD.zero with data_length := 5, data_buffer_pointer := 100 }]
    mtu := 16
    index := 0
    mem := fun _ => 0
    bells := 0 }

/-- A one-descriptor receive ring whose descriptor claims more bytes
than the MTU permits (a hardware contract violation). -/
def rxOversized : RingState RxBD :=
  { ring := [{ RxBD.zero with data_length := 32, data_buffer_pointer := 100 }]
    mtu := 16
    index := 0
    mem := fun _ => 0
    bells := 0 }

/-- The state of `txDemo2` after one 0-byte claim/consume cycle:
descriptor 0 carries the handoff flags (`ready | last_in | transmit_crc`
= 0x8C00 = 35840), the cursor is at 1 and the doorbell fired once. -/
def txDemo2After : RingState TxBD :=
  { ring := [⟨0, 35840, 0, 0, 0, 0, 0, 0⟩, ⟨0, 8192, 64, 0, 0, 0, 0, 0⟩]
    mtu := 16
    index := 1
    mem := writeBack (fun _ => 0) 0 0 []
    bells := 1 }

/-! ## Basic lemmas about the register-access helpers -/

/-- Reading a one-bit field extracts the corresponding bit. -/
theorem readField_bit (x n : Nat) :
    readField x (((1 <<< 1) - 1) <<< n) n = if x.testBit n then 1 else 0 := by
  have hm : ((1 <<< 1) - 1) <<< n = 2 ^ n := by simp [Nat.shiftLeft_eq]
  rw [readField, hm, Nat.and_two_pow]
  cases h : x.testBit n <;>
    simp [Nat.shiftRight_eq_div_pow, Nat.pos_of_ne_zero]

/-- The transmit handoff flag write sets the `ready` bit. -/
theorem txFlagsHandoff_testBit_ready (x : Nat) :
    (txFlagsHandoff x).testBit txReadyOffset = true := by
  rw [txFlagsHandoff]
  simp only [Nat.testBit_or]
  have h : ((1 <<< txReadyOffset) &&& txReadyMask).testBit txReadyOffset = true := by
    decide
  simp [h]

/-- The transmit handoff flag write sets the `last_in` bit. -/
theorem txFlagsHandoff_testBit_lastIn (x : Nat) :
    (txFlagsHandoff x).testBit txLastInOffset = true := by
  rw [txFlagsHandoff]
  simp only [Nat.testBit_or]
  have h : ((1 <<< txLastInOffset) &&& txLastInMask).testBit txLastInOffset = true := by
    decide
  simp [h]

/-- The transmit handoff flag write sets the `transmit_crc` bit. -/
theorem txFlagsHandoff_testBit_crc (x : Nat) :
    (txFlagsHandoff x).testBit txTransmitCrcOffset = true := by
  rw [txFlagsHandoff]
  simp only [Nat.testBit_or]
  have h : ((1 <<< txTransmitCrcOffset) &&& txTransmitCrcMask).testBit
      txTransmitCrcOffset = true := by
    decide
  simp [h]

/-- Setting the `empty` field through `modify_reg!` leaves the bit set. -/
theorem rxEmptySet_testBit (x : Nat) :
    (modifyField 16 x rxEmptyMask rxEmptyOffset 1).testBit rxEmptyOffset = true := by
  rw [modifyField]
  simp only [Nat.testBit_or]
  have h : ((1 <<< rxEmptyOffset) &&& rxEmptyMask).testBit rxEmptyOffset = true := by
    decide
  simp [h]

/-! ## Lemmas about the claim protocol -/

/-- A successful check claims the current descriptor: the token carries
the current index, the precomputed next index and the MTU, and the state
is untouched. -/
theorem nextImpl_of_check_true {D : Type} {check : D → Bool} {s : RingState D}
    {d : D} (hd : s.ring[s.index]? = some d) (hc : check d = true) :
    nextImpl check s =
      .value (some ⟨s.index, (s.index + 1) % s.ring.length, s.mtu⟩, s) := by
  have hlt : s.index < s.ring.length := (List.getElem?_eq_some.mp hd).1
  have hne : ¬ s.ring.length = 0 := by omega
  rw [nextImpl, if_neg hne]
  rw [hd]
  simp [hc]

/-- A failed check returns no token and leaves the state untouched. -/
theorem nextImpl_of_check_false {D : Type} {check : D → Bool} {s : RingState D}
    {d : D} (hd : s.ring[s.index]? = some d) (hc : check d = false) :
    nextImpl check s = .value (none, s) := by
  have hlt : s.index < s.ring.length := (List.getElem?_eq_some.mp hd).1
  have hne : ¬ s.ring.length = 0 := by omega
  rw [nextImpl, if_neg hne]
  rw [hd]
  simp [hc]

/-- Inversion of a non-panicking `next_impl`: the ring is non-empty, the
output state is the input state, and the token is determined by the
ownership check of the current descriptor. -/
theorem nextImpl_value_inv {D : Type} {check : D → Bool} {s s1 : RingState D}
    {o : Option IoTokenData} (h : nextImpl check s = .value (o, s1)) :
    s1 = s ∧ s.ring.length ≠ 0 ∧
      ∃ d, s.ring[s.index]? = some d ∧
        o = if check d then
              some ⟨s.index, (s.index + 1) % s.ring.length, s.mtu⟩
            else none := by
  rw [nextImpl] at h
  split at h
  · cases h
  · rename_i hne
    rcases hd : s.ring[s.index]? with _ | d <;> rw [hd] at h
    · cases h
    · dsimp only at h
      by_cases hc : check d
      · rw [if_pos hc] at h
        cases h
        exact ⟨rfl, hne, d, rfl, by simp [hc]⟩
      · rw [if_neg hc] at h
        cases h
        exact ⟨rfl, hne, d, rfl, by simp [hc]⟩

/-! ## Lemmas about the handoff protocol -/

/-- The transmit handoff, unfolded: with an in-range declared length the
caller's function runs on the `len`-byte view, the descriptor receives
the length and the combined `ready`/`last_in`/`transmit_crc` flag
update, the buffer is committed, the doorbell fires once, and the cursor
moves to the precomputed next index. -/
theorem txConsume_eq {R : Type u} (s : RingState TxBD) (t : IoTokenData)
    (len : Nat) (f : List Nat → R × List Nat) (d : TxBD)
    (hd : s.ring[t.index]? = some d) (hlen : len ≤ t.mtu) :
    txConsume s t len f =
      .value ((f (byteView s.mem d.data_buffer_pointer len)).1,
        { ring := s.ring.set t.index
            { d with data_length := len % 2 ^ 16
                     flags := txFlagsHandoff d.flags }
          mtu := s.mtu
          index := t.next
          mem := writeBack s.mem d.data_buffer_pointer len
            (f (byteView s.mem d.data_buffer_pointer len)).2
          bells := s.bells + 1 }) := by
  rw [txConsume, if_pos hlen, hd]

/-- The receive handoff, unfolded: the hardware-populated length selects
the view, the `empty` bit is set back, the doorbell fires once, and the
cursor moves to the precomputed next index. -/
theorem rxConsume_eq {R : Type u} (s : RingState RxBD) (t : IoTokenData)
    (f : List Nat → R × List Nat) (d : RxBD)
    (hd : s.ring[t.index]? = some d) (hlen : d.data_length ≤ t.mtu) :
    rxConsume s t f =
      .value ((f (byteView s.mem d.data_buffer_pointer d.data_length)).1,
        { ring := s.ring.set t.index
            { d with flags := modifyField 16 d.flags rxEmptyMask rxEmptyOffset 1 }
          mtu := s.mtu
          index := t.next
          mem := writeBack s.mem d.data_buffer_pointer d.data_length
            (f (byteView s.mem d.data_buffer_pointer d.data_length)).2
          bells := s.bells + 1 }) := by
  rw [rxConsume, hd]
  dsimp only
  rw [if_pos hlen]

/-- A transmit `consume` with a declared length above the MTU hits the
`assert!` and panics. -/
theorem txConsume_panics {R : Type u} (s : RingState TxBD) (t : IoTokenData)
    (len : Nat) (f : List Nat → R × List Nat) (hlen : t.mtu < len) :
    txConsume s t len f = .panicked := by
  rw [txConsume, if_neg (by omega)]

/-- A receive `consume` whose descriptor's hardware-populated length
exceeds the MTU hits the `assert!` and panics. -/
theorem rxConsume_panics {R : Type u} (s : RingState RxBD) (t : IoTokenData)
    (f : List Nat → R × List Nat) (d : RxBD)
    (hd : s.ring[t.index]? = some d) (hlen : t.mtu < d.data_length) :
    rxConsume s t f = .panicked := by
  rw [rxConsume, hd]
  dsimp only
  rw [if_neg (by omega)]

/-- Inversion of a successful transmit `consume`: the cursor lands on
the token's precomputed next index, the ring keeps its size, and the
doorbell fired once. -/
theorem txConsume_value_inv {R : Type u} {s s1 : RingState TxBD}
    {t : IoTokenData} {len : Nat} {f : List Nat → R × List Nat} {r : R}
    (h : txConsume s t len f = .value (r, s1)) :
    s1.index = t.next ∧ s1.ring.length = s.ring.length ∧
      s1.bells = s.bells + 1 := by
  rw [txConsume] at h
  split at h
  · rcases hd : s.ring[t.index]? with _ | d <;> rw [hd] at h
    · cases h
    · cases h
      simp [List.length_set]
  · cases h

/-- Inversion of a successful receive `consume`: the cursor lands on
the token's precomputed next index, the ring keeps its size, and the
doorbell fired once. -/
theorem rxConsume_value_inv {R : Type u} {s s1 : RingState RxBD}
    {t : IoTokenData} {f : List Nat → R × List Nat} {r : R}
    (h : rxConsume s t f = .value (r, s1)) :
    s1.index = t.next ∧ s1.ring.length = s.ring.length ∧
      s1.bells = s.bells + 1 := by
  rw [rxConsume] at h
  rcases hd : s.ring[t.index]? with _ | d <;> rw [hd] at h
  · cases h
  · dsimp only at h
    split at h
    · cases h
      simp [List.length_set]
    · cases h

/-! ## Lemmas about ring initialization -/

/-- Elementwise view of `modifyAt`. -/
theorem modifyAt_getElem? (l : List α) (i j : Nat) (f : α → α) :
    (modifyAt l i f)[j]? = if i = j then (l[j]?).map f else l[j]? := by
  rw [modifyAt]
  rcases hi : l[i]? with _ | x
  · have hlen : l.length ≤ i := by
      by_contra hlt
      rw [List.getElem?_eq_getElem (by omega)] at hi
      cases hi
    by_cases hij : i = j
    · subst hij
      rw [List.getElem?_eq_none hlen]
      simp
    · simp [hij]
  · have hlt : i < l.length := (List.getElem?_eq_some.mp hi).1
    by_cases hij : i = j
    · subst hij
      rw [List.getElem?_set_self hlt, hi]
      simp
    · rw [List.getElem?_set_ne hij]
      simp [hij]

/-- Descriptor `i` of a freshly taken transmit ring: zero-filled except
for the paired buffer address, with the wrap flag on the last slot only. -/
theorem txTake_ring_getElem? (count mtu base i : Nat) (h : i < count) :
    (txTake count mtu base).ring[i]? = some
      { TxBD.zero with
          data_buffer_pointer := bufferAddr base mtu i % 2 ^ 32
          flags := if i = count - 1 then txWrapMask else 0 } := by
  rw [txTake]
  dsimp only
  rw [modifyAt_getElem?, List.getElem?_map, List.getElem?_range h]
  have hmod : modifyField 16 0 txWrapMask txWrapOffset 1 = txWrapMask := by decide
  by_cases hij : count - 1 = i
  · rw [if_pos hij, if_pos hij.symm]
    simp [hmod, TxBD.zero]
  · rw [if_neg hij, if_neg (fun hh => hij hh.symm)]
    simp [TxBD.zero]

/-- Descriptor `i` of a freshly taken receive ring: zero-filled except
for the paired buffer address, with the `empty` flag everywhere and the
wrap flag on the last slot only. -/
theorem rxTake_ring_getElem? (count mtu base i : Nat) (h : i < count) :
    (rxTake count mtu base).ring[i]? = some
      { RxBD.zero with
          data_buffer_pointer := bufferAddr base mtu i % 2 ^ 32
          flags := if i = count - 1 then rxEmptyMask ||| rxWrapMask
                   else rxEmptyMask } := by
  rw [rxTake]
  dsimp only
  rw [modifyAt_getElem?, List.getElem?_map, List.getElem?_range h]
  have hbase : (1 <<< rxEmptyOffset) &&& rxEmptyMask = rxEmptyMask := by decide
  have hmod : modifyField 16 ((1 <<< rxEmptyOffset) &&& rxEmptyMask) rxWrapMask
      rxWrapOffset 1 = rxEmptyMask ||| rxWrapMask := by decide
  by_cases hij : count - 1 = i
  · rw [if_pos hij, if_pos hij.symm]
    simp [hmod, RxBD.zero]
  · rw [if_neg hij, if_neg (fun hh => hij hh.symm)]
    simp [hbase, RxBD.zero]

/-- Length of a freshly taken transmit ring. -/
theorem txTake_ring_length (count mtu base : Nat) :
    (txTake count mtu base).ring.length = count := by
  rw [txTake]
  dsimp only
  rw [modifyAt]
  rcases hi : ((List.range count).map _)[count - 1]? with _ | x
  · simp
  · simp [List.length_set]

/-- Length of a freshly taken receive ring. -/
theorem rxTake_ring_length (count mtu base : Nat) :
    (rxTake count mtu base).ring.length = count := by
  rw [rxTake]
  dsimp only
  rw [modifyAt]
  rcases hi : ((List.range count).map _)[count - 1]? with _ | x
  · simp
  · simp [List.length_set]

/-! ## FIFO ordering of claims -/

/-- Claims along any operation trace are strictly FIFO by index: the
`j`-th successful claim services index `(start + j) mod N`, the cursor
ends at `(start + number of claims) mod N`, stays inside `[0, N)`, and
the ring never changes size. The consume relation is abstract here; it
only has to move the cursor to the token's precomputed next index and
preserve the ring's size. -/
theorem ringOps_fifo {D : Type} {check : D → Bool}
    {con : RingState D → IoTokenData → RingState D → Prop}
    (hcon : ∀ s t s1, con s t s1 →
      s1.index = t.next ∧ s1.ring.length = s.ring.length)
    {s : RingState D} {xs : List Nat} {s' : RingState D}
    (hops : RingOps check con s xs s') (hidx : s.index < s.ring.length) :
    (∀ j (hj : j < xs.length), xs[j] = (s.index + j) % s.ring.length) ∧
    s'.index = (s.index + xs.length) % s.ring.length ∧
    s'.index < s.ring.length ∧
    s'.ring.length = s.ring.length := by
  induction hops with
  | nil s =>
    refine ⟨fun j hj => absurd hj (by simp), ?_, ?_, rfl⟩
    · simp [Nat.mod_eq_of_lt hidx]
    · simpa [Nat.mod_eq_of_lt hidx] using hidx
  | hw s ring' mem' xs s' hlen hops ih =>
    have := ih (by simpa [hlen] using hidx)
    simpa [hlen] using this
  | failed s xs s' hnone hops ih =>
    exact ih hidx
  | claim s t s1 xs s' hnext hc hops ih =>
    have hinv := nextImpl_value_inv hnext
    obtain ⟨-, hne, d, hd, ho⟩ := hinv
    have ht : t = ⟨s.index, (s.index + 1) % s.ring.length, s.mtu⟩ := by
      by_cases hcd : check d
      · rw [if_pos hcd] at ho
        exact (Option.some.injEq _ _ ▸ ho).symm ▸ rfl
      · rw [if_neg hcd] at ho
        cases ho
    have hcon1 := hcon s t s1 hc
    have hnext1 : t.next = (s.index + 1) % s.ring.length := by rw [ht]
    have hN : 0 < s.ring.length := by omega
    have hidx1 : s1.index < s1.ring.length := by
      rw [hcon1.1, hnext1, hcon1.2]
      exact Nat.mod_lt _ hN
    have ih1 := ih hidx1
    have hlen1 : s1.ring.length = s.ring.length := hcon1.2
    have hsidx : s1.index = (s.index + 1) % s.ring.length := by
      rw [hcon1.1, hnext1]
    constructor
    · intro j hj
      match j with
      | 0 =>
        simpa using (Nat.mod_eq_of_lt hidx).symm
      | jj + 1 =>
        have hjj : jj < xs.length := by simpa using hj
        have := ih1.1 jj hjj
        rw [hlen1, hsidx] at this
        calc (s.index :: xs)[jj + 1] = xs[jj] := by simp
          _ = ((s.index + 1) % s.ring.length + jj) % s.ring.length := this
          _ = (s.index + 1 + jj) % s.ring.length := by rw [Nat.mod_add_mod]
          _ = (s.index + (jj + 1)) % s.ring.length := by
              rw [Nat.add_assoc, Nat.add_comm 1 jj]
    · refine ⟨?_, ?_, ?_⟩
      · have := ih1.2.1
        rw [hlen1, hsidx] at this
        rw [this, Nat.mod_add_mod]
        simp [List.length_cons, Nat.add_assoc, Nat.add_comm 1 xs.length]
      · have := ih1.2.2.1
        rw [hlen1] at this
        exact this
      · rw [ih1.2.2.2, hlen1]

/-- A byte view over `len` bytes has exactly `len` bytes. -/
theorem byteView_length (mem : Nat → Nat) (ptr len : Nat) :
    (byteView mem ptr len).length = len := by
  simp [byteView]

/-- After the transmit handoff flag update, the `ready` field reads 1. -/
theorem readField_handoff_ready (x : Nat) :
    readField (txFlagsHandoff x) txReadyMask txReadyOffset = 1 := by
  have h := readField_bit (txFlagsHandoff x) txReadyOffset
  rw [txFlagsHandoff_testBit_ready x] at h
  simpa using h

/-- After the transmit handoff flag update, the `last_in` field reads 1. -/
theorem readField_handoff_lastIn (x : Nat) :
    readField (txFlagsHandoff x) txLastInMask txLastInOffset = 1 := by
  have h := readField_bit (txFlagsHandoff x) txLastInOffset
  rw [txFlagsHandoff_testBit_lastIn x] at h
  simpa using h

/-- After the transmit handoff flag update, the `transmit_crc` field reads 1. -/
theorem readField_handoff_crc (x : Nat) :
    readField (txFlagsHandoff x) txTransmitCrcMask txTransmitCrcOffset = 1 := by
  have h := readField_bit (txFlagsHandoff x) txTransmitCrcOffset
  rw [txFlagsHandoff_testBit_crc x] at h
  simpa using h

/-- After the receive handoff flag update, the `empty` field reads 1. -/
theorem readField_handoff_empty (x : Nat) :
    readField (modifyField 16 x rxEmptyMask rxEmptyOffset 1) rxEmptyMask
      rxEmptyOffset = 1 := by
  have h := readField_bit (modifyField 16 x rxEmptyMask rxEmptyOffset 1) rxEmptyOffset
  rw [rxEmptySet_testBit x] at h
  simpa using h

/-! ## Claim C1 -/

/-- C1: for every token claimed at cursor index `i` on a ring of `N`
descriptors, `consume` invokes the caller's function on a byte view of
exactly `len` bytes of the claimed descriptor's buffer (transmit: the
caller-declared `len`; receive: the descriptor's hardware-populated
`data_length`), then, for transmit, writes `len` into the descriptor's
`data_length` field (a 16-bit register) and sets the `ready`, `last_in`
and `transmit_crc` flag bits in the single combined flag update
`txFlagsHandoff`; for receive, sets the `empty` flag bit; in both cases
it fires the doorbell notifier exactly once, sets the cursor's stored
index to the precomputed next index `(i + 1) % N`, and returns the
caller function's result unchanged. -/
theorem consume_handoff :
    (∀ (s : RingState TxBD) (t : IoTokenData) (R : Type) (len : Nat)
        (f : List Nat → R × List Nat),
      txNextToken s = .value (some t, s) →
      len ≤ t.mtu →
      ∃ d s1,
        s.ring[t.index]? = some d ∧
        txConsume s t len f =
          .value ((f (byteView s.mem d.data_buffer_pointer len)).1, s1) ∧
        (byteView s.mem d.data_buffer_pointer len).length = len ∧
        s1.ring[t.index]? = some
          { d with data_length := len % 2 ^ 16, flags := txFlagsHandoff d.flags } ∧
        readField (txFlagsHandoff d.flags) txReadyMask txReadyOffset = 1 ∧
        readField (txFlagsHandoff d.flags) txLastInMask txLastInOffset = 1 ∧
        readField (txFlagsHandoff d.flags) txTransmitCrcMask txTransmitCrcOffset = 1 ∧
        s1.bells = s.bells + 1 ∧
        t.index = s.index ∧
        t.next = (s.index + 1) % s.ring.length ∧
        s1.index = t.next) ∧
    (∀ (s : RingState RxBD) (t : IoTokenData) (R : Type)
        (f : List Nat → R × List Nat) (d : RxBD),
      rxNextToken s = .value (some t, s) →
      s.ring[t.index]? = some d →
      d.data_length ≤ t.mtu →
      ∃ s1,
        rxConsume s t f =
          .value ((f (byteView s.mem d.data_buffer_pointer d.data_length)).1, s1) ∧
        (byteView s.mem d.data_buffer_pointer d.data_length).length = d.data_length ∧
        s1.ring[t.index]? = some
          { d with flags := modifyField 16 d.flags rxEmptyMask rxEmptyOffset 1 } ∧
        readField (modifyField 16 d.flags rxEmptyMask rxEmptyOffset 1) rxEmptyMask
          rxEmptyOffset = 1 ∧
        s1.bells = s.bells + 1 ∧
        t.index = s.index ∧
        t.next = (s.index + 1) % s.ring.length ∧
        s1.index = t.next) := by
  constructor
  · intro s t R len f hnext hlen
    obtain ⟨-, hne, d, hd, ho⟩ := nextImpl_value_inv hnext
    by_cases hcd : txCheck d
    · rw [if_pos hcd] at ho
      injection ho with ht
      subst ht
      have hidx : s.index < s.ring.length := (List.getElem?_eq_some.mp hd).1
      refine ⟨d, _, hd, txConsume_eq s _ len f d hd hlen, byteView_length _ _ _, ?_,
        readField_handoff_ready _, readField_handoff_lastIn _, readField_handoff_crc _,
        rfl, rfl, rfl, rfl⟩
      exact List.getElem?_set_self hidx
    · rw [if_neg hcd] at ho
      cases ho
  · intro s t R f d hnext hd hlen
    obtain ⟨-, hne, d0, hd0, ho⟩ := nextImpl_value_inv hnext
    by_cases hcd : rxCheck d0
    · rw [if_pos hcd] at ho
      injection ho with ht
      subst ht
      have hdd : d0 = d := Option.some.inj (hd0.symm.trans hd)
      subst hdd
      have hidx : s.index < s.ring.length := (List.getElem?_eq_some.mp hd0).1
      refine ⟨_, rxConsume_eq s _ f d0 hd0 hlen, byteView_length _ _ _, ?_,
        readField_handoff_empty _, rfl, rfl, rfl, rfl⟩
      exact List.getElem?_set_self hidx
    · rw [if_neg hcd] at ho
      cases ho

/-- Witness for C1: a one-descriptor transmit ring handing off a 4-byte
frame, and a hardware-filled one-descriptor receive ring handing back a
5-byte frame. -/
theorem consume_handoff_witness :
    (txNextToken txDemo = .value (some ⟨0, 0, 16⟩, txDemo)) ∧
    ((4 : Nat) ≤ (16 : Nat)) ∧
    (∃ d s1,
      txDemo.ring[(0 : Nat)]? = some d ∧
      txConsume txDemo ⟨0, 0, 16⟩ 4 (fun v => ((7 : Nat), v)) = .value (7, s1) ∧
      (byteView txDemo.mem d.data_buffer_pointer 4).length = 4 ∧
      s1.ring[(0 : Nat)]? = some
        { d with data_length := 4, flags := txFlagsHandoff d.flags } ∧
      readField (txFlagsHandoff d.flags) txReadyMask txReadyOffset = 1 ∧
      readField (txFlagsHandoff d.flags) txLastInMask txLastInOffset = 1 ∧
      readField (txFlagsHandoff d.flags) txTransmitCrcMask txTransmitCrcOffset = 1 ∧
      s1.bells = 1 ∧ (0 : Nat) = 0 ∧ (0 : Nat) = 0 ∧ s1.index = 0) ∧
    (rxNextToken rxFilled = .value (some ⟨0, 0, 16⟩, rxFilled)) ∧
    (rxFilled.ring[(0 : Nat)]? = some
      { RxBD.zero with data_length := 5, data_buffer_pointer := 100 }) ∧
    ((5 : Nat) ≤ (16 : Nat)) ∧
    (∃ s1,
      rxConsume rxFilled ⟨0, 0, 16⟩ (fun v => ((9 : Nat), v)) = .value (9, s1) ∧
      (byteView rxFilled.mem 100 5).length = 5 ∧
      s1.ring[(0 : Nat)]? = some
        { RxBD.zero with data_length := 5, flags := 32768, data_buffer_pointer := 100 } ∧
      readField (32768 : Nat) rxEmptyMask rxEmptyOffset = 1 ∧
      s1.bells = 1 ∧ (0 : Nat) = 0 ∧ (0 : Nat) = 0 ∧ s1.index = 0) :=
  ⟨by rfl, by decide,
   consume_handoff.1 txDemo ⟨0, 0, 16⟩ Nat 4 (fun v => (7, v)) (by rfl) (by decide),
   by rfl, by rfl, by decide,
   consume_handoff.2 rxFilled ⟨0, 0, 16⟩ Nat (fun v => (9, v))
     { RxBD.zero with data_length := 5, data_buffer_pointer := 100 }
     (by rfl) (by rfl) (by decide)⟩

/-! ## Claim C2 -/

/-- C2: `next_token` returns a token if and only if the descriptor at
the current cursor index is owned by software — for a receive ring its
`empty` flag reads 0, for a transmit ring its `ready` flag reads 0.
When the check fails, `next_token` returns `None` and leaves the cursor
index and every descriptor field unchanged (the returned state is the
input state). The definitions of `nextImpl` and the checks are total
functions: the call neither blocks nor loops. -/
theorem next_token_owned_iff :
    (∀ (s : RingState TxBD) (d : TxBD), s.ring[s.index]? = some d →
      ((∃ t, txNextToken s = .value (some t, s)) ↔
        readField d.flags txReadyMask txReadyOffset = 0) ∧
      (readField d.flags txReadyMask txReadyOffset ≠ 0 →
        txNextToken s = .value (none, s))) ∧
    (∀ (s : RingState RxBD) (d : RxBD), s.ring[s.index]? = some d →
      ((∃ t, rxNextToken s = .value (some t, s)) ↔
        readField d.flags rxEmptyMask rxEmptyOffset = 0) ∧
      (readField d.flags rxEmptyMask rxEmptyOffset ≠ 0 →
        rxNextToken s = .value (none, s))) := by
  constructor
  · intro s d hd
    constructor
    · constructor
      · rintro ⟨t, ht⟩
        obtain ⟨-, -, d0, hd0, ho⟩ := nextImpl_value_inv ht
        have hdd : d0 = d := Option.some.inj (hd0.symm.trans hd)
        subst hdd
        by_cases hc : txCheck d0
        · simpa [txCheck] using hc
        · rw [if_neg hc] at ho
          cases ho
      · intro hzero
        exact ⟨_, nextImpl_of_check_true hd (by simp [txCheck, hzero])⟩
    · intro hnz
      exact nextImpl_of_check_false hd (by simpa [txCheck] using hnz)
  · intro s d hd
    constructor
    · constructor
      · rintro ⟨t, ht⟩
        obtain ⟨-, -, d0, hd0, ho⟩ := nextImpl_value_inv ht
        have hdd : d0 = d := Option.some.inj (hd0.symm.trans hd)
        subst hdd
        by_cases hc : rxCheck d0
        · simpa [rxCheck] using hc
        · rw [if_neg hc] at ho
          cases ho
      · intro hzero
        exact ⟨_, nextImpl_of_check_true hd (by simp [rxCheck, hzero])⟩
    · intro hnz
      exact nextImpl_of_check_false hd (by simpa [rxCheck] using hnz)

/-- Witness for C2: on a freshly taken transmit ring the `ready` flag
reads 0 and a claim succeeds; on a freshly taken receive ring the
`empty` flag reads 1 (hardware-owned) and a claim fails. -/
theorem next_token_owned_iff_witness :
    (txDemo.ring[txDemo.index]? = some
      { TxBD.zero with data_buffer_pointer := 0, flags := txWrapMask }) ∧
    (((∃ t, txNextToken txDemo = .value (some t, txDemo)) ↔
        readField txWrapMask txReadyMask txReadyOffset = 0) ∧
      (readField txWrapMask txReadyMask txReadyOffset ≠ 0 →
        txNextToken txDemo = .value (none, txDemo))) ∧
    ((rxTake 1 16 0).ring[(rxTake 1 16 0).index]? = some
      { RxBD.zero with data_buffer_pointer := 0, flags := rxEmptyMask ||| rxWrapMask }) ∧
    (((∃ t, rxNextToken (rxTake 1 16 0) = .value (some t, rxTake 1 16 0)) ↔
        readField (rxEmptyMask ||| rxWrapMask) rxEmptyMask rxEmptyOffset = 0) ∧
      (readField (rxEmptyMask ||| rxWrapMask) rxEmptyMask rxEmptyOffset ≠ 0 →
        rxNextToken (rxTake 1 16 0) = .value (none, rxTake 1 16 0))) :=
  ⟨by rfl,
   next_token_owned_iff.1 txDemo
     { TxBD.zero with data_buffer_pointer := 0, flags := txWrapMask } (by rfl),
   by rfl,
   next_token_owned_iff.2 (rxTake 1 16 0)
     { RxBD.zero with data_buffer_pointer := 0, flags := rxEmptyMask ||| rxWrapMask }
     (by rfl)⟩

/-! ## Claim C3 -/

/-- C3: after `take()` on an N-descriptor, MTU-sized buffer set, every
descriptor is zero-filled apart from the fields `take` then writes,
every descriptor's `data_buffer_pointer` holds the address of its
paired data buffer, every receive descriptor has its `empty` bit set
(owned by hardware) while every transmit descriptor's `ready` bit is
clear (owned by software), and the wrap bit is set on descriptor `N - 1`
and on no other descriptor. -/
theorem take_initializes :
    ∀ (count mtu base i : Nat), i < count →
      (txTake count mtu base).ring.length = count ∧
      (rxTake count mtu base).ring.length = count ∧
      (txTake count mtu base).index = 0 ∧
      (rxTake count mtu base).index = 0 ∧
      (∃ d, (txTake count mtu base).ring[i]? = some d ∧
        d.data_length = 0 ∧ d.errors = 0 ∧ d.control = 0 ∧ d.launch_time = 0 ∧
        d.last_bdu = 0 ∧ d.timestamp_1588 = 0 ∧
        d.data_buffer_pointer = bufferAddr base mtu i % 2 ^ 32 ∧
        readField d.flags txReadyMask txReadyOffset = 0 ∧
        readField d.flags txWrapMask txWrapOffset = (if i = count - 1 then 1 else 0)) ∧
      (∃ d, (rxTake count mtu base).ring[i]? = some d ∧
        d.data_length = 0 ∧ d.status = 0 ∧ d.control = 0 ∧ d.checksum = 0 ∧
        d.header = 0 ∧ d.last_bdu = 0 ∧ d.timestamp_1588 = 0 ∧
        d.data_buffer_pointer = bufferAddr base mtu i % 2 ^ 32 ∧
        readField d.flags rxEmptyMask rxEmptyOffset = 1 ∧
        readField d.flags rxWrapMask rxWrapOffset = (if i = count - 1 then 1 else 0)) := by
  intro count mtu base i h
  refine ⟨txTake_ring_length count mtu base, rxTake_ring_length count mtu base,
    rfl, rfl, ?_, ?_⟩
  · refine ⟨_, txTake_ring_getElem? count mtu base i h,
      rfl, rfl, rfl, rfl, rfl, rfl, rfl, ?_, ?_⟩
    · dsimp only
      by_cases hij : i = count - 1
      · simp only [if_pos hij]
        decide
      · simp only [if_neg hij]
        decide
    · dsimp only
      by_cases hij : i = count - 1
      · simp only [if_pos hij]
        decide
      · simp only [if_neg hij]
        decide
  · refine ⟨_, rxTake_ring_getElem? count mtu base i h,
      rfl, rfl, rfl, rfl, rfl, rfl, rfl, rfl, ?_, ?_⟩
    · dsimp only
      by_cases hij : i = count - 1
      · simp only [if_pos hij]
        decide
      · simp only [if_neg hij]
        decide
    · dsimp only
      by_cases hij : i = count - 1
      · simp only [if_pos hij]
        decide
      · simp only [if_neg hij]
        decide

/-- Witness for C3: the last slot of a freshly taken two-descriptor
ring pair with MTU 16, where the wrap bit is set. -/
theorem take_initializes_witness :
    (1 : Nat) < 2 ∧
    ((txTake 2 16 0).ring.length = 2 ∧
      (rxTake 2 16 0).ring.length = 2 ∧
      (txTake 2 16 0).index = 0 ∧
      (rxTake 2 16 0).index = 0 ∧
      (∃ d, (txTake 2 16 0).ring[(1 : Nat)]? = some d ∧
        d.data_length = 0 ∧ d.errors = 0 ∧ d.control = 0 ∧ d.launch_time = 0 ∧
        d.last_bdu = 0 ∧ d.timestamp_1588 = 0 ∧
        d.data_buffer_pointer = 64 ∧
        readField d.flags txReadyMask txReadyOffset = 0 ∧
        readField d.flags txWrapMask txWrapOffset = 1) ∧
      (∃ d, (rxTake 2 16 0).ring[(1 : Nat)]? = some d ∧
        d.data_length = 0 ∧ d.status = 0 ∧ d.control = 0 ∧ d.checksum = 0 ∧
        d.header = 0 ∧ d.last_bdu = 0 ∧ d.timestamp_1588 = 0 ∧
        d.data_buffer_pointer = 64 ∧
        readField d.flags rxEmptyMask rxEmptyOffset = 1 ∧
        readField d.flags rxWrapMask rxWrapOffset = 1)) :=
  ⟨by decide, take_initializes 2 16 0 1 (by decide)⟩

/-! ## Claim C4 -/

/-- C4: for every ring and every trace of `next_token` / `consume`
operations (interleaved with arbitrary ring-size-preserving hardware
activity) starting from a cursor inside `[0, N)`, successful claims are
strictly FIFO by index: the `j`-th successful claim services index
`(start + j) mod N`, each successful consume advances the cursor by
exactly one modulo `N`, the cursor stays inside `[0, N)` and never
skips or reorders slots. -/
theorem claims_fifo :
    (∀ (s : RingState TxBD) (xs : List Nat) (s' : RingState TxBD),
      RingOps txCheck TxConsumes s xs s' →
      s.index < s.ring.length →
      (∀ j (hj : j < xs.length), xs[j] = (s.index + j) % s.ring.length) ∧
      s'.index = (s.index + xs.length) % s.ring.length ∧
      s'.index < s.ring.length ∧
      s'.ring.length = s.ring.length) ∧
    (∀ (s : RingState RxBD) (xs : List Nat) (s' : RingState RxBD),
      RingOps rxCheck RxConsumes s xs s' →
      s.index < s.ring.length →
      (∀ j (hj : j < xs.length), xs[j] = (s.index + j) % s.ring.length) ∧
      s'.index = (s.index + xs.length) % s.ring.length ∧
      s'.index < s.ring.length ∧
      s'.ring.length = s.ring.length) := by
  constructor
  · intro s xs s' hops hidx
    refine ringOps_fifo ?_ hops hidx
    intro a t b hc
    obtain ⟨len, f, r, h⟩ := hc
    exact ⟨(txConsume_value_inv h).1, (txConsume_value_inv h).2.1⟩
  · intro s xs s' hops hidx
    refine ringOps_fifo ?_ hops hidx
    intro a t b hc
    obtain ⟨f, r, h⟩ := hc
    exact ⟨(rxConsume_value_inv h).1, (rxConsume_value_inv h).2.1⟩

/-- Witness for C4: one successful claim/consume cycle on a fresh
two-descriptor transmit ring services index 0 and moves the cursor to
1, and the empty trace on a hardware-filled receive ring leaves the
cursor at 0. -/
theorem claims_fifo_witness :
    RingOps txCheck TxConsumes txDemo2 [0] txDemo2After ∧
    txDemo2.index < txDemo2.ring.length ∧
    ((∀ j (hj : j < ([0] : List Nat).length),
        ([0] : List Nat)[j] = (txDemo2.index + j) % txDemo2.ring.length) ∧
      txDemo2After.index = (txDemo2.index + ([0] : List Nat).length) % txDemo2.ring.length ∧
      txDemo2After.index < txDemo2.ring.length ∧
      txDemo2After.ring.length = txDemo2.ring.length) ∧
    rxFilled.index < rxFilled.ring.length ∧
    ((∀ j (hj : j < ([] : List Nat).length),
        ([] : List Nat)[j] = (rxFilled.index + j) % rxFilled.ring.length) ∧
      rxFilled.index = (rxFilled.index + ([] : List Nat).length) % rxFilled.ring.length ∧
      rxFilled.index < rxFilled.ring.length ∧
      rxFilled.ring.length = rxFilled.ring.length) :=
  have hops : RingOps txCheck TxConsumes txDemo2 [0] txDemo2After :=
    RingOps.claim txDemo2 ⟨0, 1, 16⟩ txDemo2After [] txDemo2After (by rfl)
      ⟨0, fun v => (0, v), 0, by rfl⟩ (RingOps.nil txDemo2After)
  ⟨hops, by decide, claims_fifo.1 txDemo2 [0] txDemo2After hops (by decide),
    by decide, claims_fifo.2 rxFilled [] rxFilled (RingOps.nil rxFilled) (by decide)⟩

/-! ## Claim C6 -/

/-- C6: the device's `receive()` returns `Some` exactly when both the
transmit ring's current descriptor and the receive ring's current
descriptor are owned by software; a successful receive also yields a
transmit token, the pair being `(rx, tx)` with each token claiming its
ring's current descriptor; otherwise it returns `None` with the cursors
and descriptors of both rings unchanged (the returned state is the
input state). -/
theorem receive_yields_pair :
    ∀ (e : EnetState) (dtx : TxBD) (drx : RxBD),
      e.tx.ring[e.tx.index]? = some dtx →
      e.rx.ring[e.rx.index]? = some drx →
      ((readField dtx.flags txReadyMask txReadyOffset = 0 ∧
        readField drx.flags rxEmptyMask rxEmptyOffset = 0) →
        enetReceive e = .value
          (some (⟨e.rx.index, (e.rx.index + 1) % e.rx.ring.length, e.rx.mtu⟩,
                 ⟨e.tx.index, (e.tx.index + 1) % e.tx.ring.length, e.tx.mtu⟩), e)) ∧
      ((∃ rt tt, enetReceive e = .value (some (rt, tt), e)) ↔
        (readField dtx.flags txReadyMask txReadyOffset = 0 ∧
         readField drx.flags rxEmptyMask rxEmptyOffset = 0)) ∧
      (¬ (readField dtx.flags txReadyMask txReadyOffset = 0 ∧
          readField drx.flags rxEmptyMask rxEmptyOffset = 0) →
        enetReceive e = .value (none, e)) := by
  intro e dtx drx hdtx hdrx
  by_cases htx : readField dtx.flags txReadyMask txReadyOffset = 0
  · have h1 : txNextToken e.tx =
        .value (some ⟨e.tx.index, (e.tx.index + 1) % e.tx.ring.length, e.tx.mtu⟩, e.tx) :=
      nextImpl_of_check_true hdtx (by simp [txCheck, htx])
    by_cases hrx : readField drx.flags rxEmptyMask rxEmptyOffset = 0
    · have h2 : rxNextToken e.rx =
          .value (some ⟨e.rx.index, (e.rx.index + 1) % e.rx.ring.length, e.rx.mtu⟩, e.rx) :=
        nextImpl_of_check_true hdrx (by simp [rxCheck, hrx])
      have hsome : enetReceive e = .value
          (some (⟨e.rx.index, (e.rx.index + 1) % e.rx.ring.length, e.rx.mtu⟩,
                 ⟨e.tx.index, (e.tx.index + 1) % e.tx.ring.length, e.tx.mtu⟩), e) := by
        unfold enetReceive
        rw [h1]
        dsimp only
        rw [h2]
      refine ⟨fun _ => hsome, ?_, fun hn => absurd ⟨htx, hrx⟩ hn⟩
      constructor
      · intro _
        exact ⟨htx, hrx⟩
      · intro _
        exact ⟨_, _, hsome⟩
    · have h2 : rxNextToken e.rx = .value (none, e.rx) :=
        nextImpl_of_check_false hdrx (by simp [rxCheck, hrx])
      have hnone : enetReceive e = .value (none, e) := by
        unfold enetReceive
        rw [h1]
        dsimp only
        rw [h2]
      refine ⟨fun hb => absurd hb.2 hrx, ?_, fun _ => hnone⟩
      constructor
      · rintro ⟨rt, tt, hre⟩
        rw [hnone] at hre
        cases hre
      · rintro ⟨-, hb⟩
        exact absurd hb hrx
  · have h1 : txNextToken e.tx = .value (none, e.tx) :=
      nextImpl_of_check_false hdtx (by simp [txCheck, htx])
    have hnone : enetReceive e = .value (none, e) := by
      unfold enetReceive
      rw [h1]
    refine ⟨fun hb => absurd hb.1 htx, ?_, fun _ => hnone⟩
    constructor
    · rintro ⟨rt, tt, hre⟩
      rw [hnone] at hre
      cases hre
    · rintro ⟨hb, -⟩
      exact absurd hb htx

/-- Witness for C6: with a fresh one-descriptor transmit ring and a
hardware-filled one-descriptor receive ring, `receive()` yields the
`(rx, tx)` token pair. -/
theorem receive_yields_pair_witness :
    (txDemo.ring[txDemo.index]? = some ⟨0, 8192, 0, 0, 0, 0, 0, 0⟩) ∧
    (rxFilled.ring[rxFilled.index]? = some
      { RxBD.zero with data_length := 5, data_buffer_pointer := 100 }) ∧
    (((readField (8192 : Nat) txReadyMask txReadyOffset = 0 ∧
        readField (0 : Nat) rxEmptyMask rxEmptyOffset = 0) →
        enetReceive ⟨txDemo, rxFilled⟩ =
          .value (some (⟨0, 0, 16⟩, ⟨0, 0, 16⟩), ⟨txDemo, rxFilled⟩)) ∧
      ((∃ rt tt, enetReceive ⟨txDemo, rxFilled⟩ =
          .value (some (rt, tt), ⟨txDemo, rxFilled⟩)) ↔
        (readField (8192 : Nat) txReadyMask txReadyOffset = 0 ∧
         readField (0 : Nat) rxEmptyMask rxEmptyOffset = 0)) ∧
      (¬ (readField (8192 : Nat) txReadyMask txReadyOffset = 0 ∧
          readField (0 : Nat) rxEmptyMask rxEmptyOffset = 0) →
        enetReceive ⟨txDemo, rxFilled⟩ = .value (none, ⟨txDemo, rxFilled⟩))) :=
  ⟨by rfl, by rfl,
   receive_yields_pair ⟨txDemo, rxFilled⟩ ⟨0, 8192, 0, 0, 0, 0, 0, 0⟩
     { RxBD.zero with data_length := 5, data_buffer_pointer := 100 } (by rfl) (by rfl)⟩

/-! ## Claim C7 -/

/-- C7: `consume` on a transmit token with a declared length strictly
greater than the MTU hits the fatal `assert!` (modelled as `panicked`)
and produces no result state at all — no view is constructed and no
descriptor field written; symmetrically, `consume` on a receive token
panics when the hardware-populated `data_length` exceeds the MTU.
When the length is within bounds, the constructed view has exactly the
declared (transmit) or hardware-populated (receive) number of bytes:
nothing is silently truncated. -/
theorem consume_mtu_assert :
    (∀ (s : RingState TxBD) (t : IoTokenData) (R : Type) (len : Nat)
        (f : List Nat → R × List Nat),
      t.mtu < len → txConsume s t len f = .panicked) ∧
    (∀ (s : RingState RxBD) (t : IoTokenData) (R : Type)
        (f : List Nat → R × List Nat) (d : RxBD),
      s.ring[t.index]? = some d → t.mtu < d.data_length →
      rxConsume s t f = .panicked) ∧
    (∀ (s : RingState TxBD) (t : IoTokenData) (R : Type) (len : Nat)
        (f : List Nat → R × List Nat) (d : TxBD),
      s.ring[t.index]? = some d → len ≤ t.mtu →
      ∃ s1, txConsume s t len f =
          .value ((f (byteView s.mem d.data_buffer_pointer len)).1, s1) ∧
        (byteView s.mem d.data_buffer_pointer len).length = len) ∧
    (∀ (s : RingState RxBD) (t : IoTokenData) (R : Type)
        (f : List Nat → R × List Nat) (d : RxBD),
      s.ring[t.index]? = some d → d.data_length ≤ t.mtu →
      ∃ s1, rxConsume s t f =
          .value ((f (byteView s.mem d.data_buffer_pointer d.data_length)).1, s1) ∧
        (byteView s.mem d.data_buffer_pointer d.data_length).length = d.data_length) := by
  refine ⟨fun s t R len f h => txConsume_panics s t len f h,
    fun s t R f d hd h => rxConsume_panics s t f d hd h, ?_, ?_⟩
  · intro s t R len f d hd hlen
    exact ⟨_, txConsume_eq s t len f d hd hlen, byteView_length _ _ _⟩
  · intro s t R f d hd hlen
    exact ⟨_, rxConsume_eq s t f d hd hlen, byteView_length _ _ _⟩

/-- Witness for C7: declaring 17 bytes against MTU 16 panics on the
transmit path; a receive descriptor claiming 32 bytes against MTU 16
panics; 4 and 5 bytes within MTU 16 yield exact-length views. -/
theorem consume_mtu_assert_witness :
    ((16 : Nat) < 17 ∧
      txConsume txDemo ⟨0, 0, 16⟩ 17 (fun v => ((0 : Nat), v)) = .panicked) ∧
    (rxOversized.ring[(0 : Nat)]? = some
      { RxBD.zero with data_length := 32, data_buffer_pointer := 100 } ∧
      (16 : Nat) < 32 ∧
      rxConsume rxOversized ⟨0, 0, 16⟩ (fun v => ((0 : Nat), v)) = .panicked) ∧
    (txDemo.ring[(0 : Nat)]? = some ⟨0, 8192, 0, 0, 0, 0, 0, 0⟩ ∧
      (4 : Nat) ≤ 16 ∧
      ∃ s1, txConsume txDemo ⟨0, 0, 16⟩ 4 (fun v => ((0 : Nat), v)) =
          .value (0, s1) ∧
        (byteView txDemo.mem 0 4).length = 4) ∧
    (rxFilled.ring[(0 : Nat)]? = some
      { RxBD.zero with data_length := 5, data_buffer_pointer := 100 } ∧
      (5 : Nat) ≤ 16 ∧
      ∃ s1, rxConsume rxFilled ⟨0, 0, 16⟩ (fun v => ((0 : Nat), v)) =
          .value (0, s1) ∧
        (byteView rxFilled.mem 100 5).length = 5) :=
  ⟨⟨by decide,
    consume_mtu_assert.1 txDemo ⟨0, 0, 16⟩ Nat 17 (fun v => (0, v)) (by decide)⟩,
   ⟨by rfl, by decide,
    consume_mtu_assert.2.1 rxOversized ⟨0, 0, 16⟩ Nat (fun v => (0, v))
      { RxBD.zero with data_length := 32, data_buffer_pointer := 100 }
      (by rfl) (by decide)⟩,
   ⟨by rfl, by decide,
    consume_mtu_assert.2.2.1 txDemo ⟨0, 0, 16⟩ Nat 4 (fun v => (0, v))
      ⟨0, 8192, 0, 0, 0, 0, 0, 0⟩ (by rfl) (by decide)⟩,
   ⟨by rfl, by decide,
    consume_mtu_assert.2.2.2 rxFilled ⟨0, 0, 16⟩ Nat (fun v => (0, v))
      { RxBD.zero with data_length := 5, data_buffer_pointer := 100 }
      (by rfl) (by decide)⟩⟩

/-! ## Claim C8 -/

/-- C8: a token obtained from `next_token` that is dropped without
`consume` leaves every descriptor field, the buffer memory, the
cursor's stored index and the doorbell count unchanged: `next_token`
performs no writes at all (the returned state is the input state), and
`IoToken` has no drop glue. There is no partial handoff. -/
theorem token_drop_no_effect :
    (∀ (s s1 : RingState TxBD) (o : Option IoTokenData),
      txNextToken s = .value (o, s1) →
      s1 = s ∧ s1.ring = s.ring ∧ s1.index = s.index ∧
      s1.mem = s.mem ∧ s1.bells = s.bells) ∧
    (∀ (s s1 : RingState RxBD) (o : Option IoTokenData),
      rxNextToken s = .value (o, s1) →
      s1 = s ∧ s1.ring = s.ring ∧ s1.index = s.index ∧
      s1.mem = s.mem ∧ s1.bells = s.bells) := by
  constructor
  · intro s s1 o h
    obtain ⟨rfl, -⟩ := nextImpl_value_inv h
    exact ⟨rfl, rfl, rfl, rfl, rfl⟩
  · intro s s1 o h
    obtain ⟨rfl, -⟩ := nextImpl_value_inv h
    exact ⟨rfl, rfl, rfl, rfl, rfl⟩

/-- Witness for C8: claiming on a fresh transmit ring and failing to
claim on a fresh (hardware-owned) receive ring both leave the ring
state untouched. -/
theorem token_drop_no_effect_witness :
    (txNextToken txDemo = .value (some ⟨0, 0, 16⟩, txDemo) ∧
      (txDemo = txDemo ∧ txDemo.ring = txDemo.ring ∧
        txDemo.index = txDemo.index ∧ txDemo.mem = txDemo.mem ∧
        txDemo.bells = txDemo.bells)) ∧
    (rxNextToken (rxTake 1 16 0) = .value (none, rxTake 1 16 0) ∧
      (rxTake 1 16 0 = rxTake 1 16 0 ∧
        (rxTake 1 16 0).ring = (rxTake 1 16 0).ring ∧
        (rxTake 1 16 0).index = (rxTake 1 16 0).index ∧
        (rxTake 1 16 0).mem = (rxTake 1 16 0).mem ∧
        (rxTake 1 16 0).bells = (rxTake 1 16 0).bells)) :=
  ⟨⟨by rfl, token_drop_no_effect.1 txDemo txDemo (some ⟨0, 0, 16⟩) (by rfl)⟩,
   ⟨by rfl, token_drop_no_effect.2 (rxTake 1 16 0) (rxTake 1 16 0) none (by rfl)⟩⟩

/-! ## Claim C9 -/

/-- C9: instantiating `IoBuffers::new` with an MTU that is not
divisible by 16 is rejected by the compile-time assertion
`MTU % 16 == 0` — for every non-conforming MTU, including 100 and
1500 — and succeeds for every MTU divisible by 16, including 1536 and
2048. -/
theorem mtu_divisible_by_16 :
    (∀ count mtu : Nat, (ioBuffersNew count mtu).isSome = true ↔ mtu % 16 = 0) ∧
    ioBuffersNew 8 100 = none ∧
    ioBuffersNew 8 1500 = none ∧
    (ioBuffersNew 8 1536).isSome = true ∧
    (ioBuffersNew 8 2048).isSome = true := by
  refine ⟨?_, by decide, by decide, by decide, by decide⟩
  intro count mtu
  rw [ioBuffersNew]
  by_cases h : mtu % 16 = 0
  · simp [h]
  · simp [h]

/-! ## Claim C10 -/

/-- C10: for a buffer set with COUNT = 0 descriptors, `new()` and
`take()` both succeed and yield a cursor at index 0, but every call to
`next_token` panics — the remainder-by-zero in
`(index + 1) % ring.len()` fires before any descriptor is inspected;
for every ring with COUNT ≥ 1 and the cursor inside the ring, neither
the next-index computation nor the descriptor lookup at the current
index can fail. -/
theorem count_zero_claim_panics :
    (∀ mtu base : Nat, mtu % 16 = 0 →
      (ioBuffersNew 0 mtu).isSome = true ∧
      (txTake 0 mtu base).ring.length = 0 ∧
      (txTake 0 mtu base).index = 0 ∧
      (rxTake 0 mtu base).index = 0 ∧
      txNextToken (txTake 0 mtu base) = .panicked ∧
      rxNextToken (rxTake 0 mtu base) = .panicked) ∧
    (∀ (D : Type) (check : D → Bool) (s : RingState D),
      1 ≤ s.ring.length → s.index < s.ring.length →
      nextImpl check s ≠ .panicked) := by
  constructor
  · intro mtu base h
    refine ⟨?_, rfl, rfl, rfl, rfl, rfl⟩
    rw [ioBuffersNew, if_pos h]
    rfl
  · intro D check s h1 h2 hcontra
    rw [nextImpl, if_neg (show ¬s.ring.length = 0 by omega),
      List.getElem?_eq_getElem h2] at hcontra
    dsimp only at hcontra
    split at hcontra <;> cases hcontra

/-- Witness for C10: a zero-descriptor buffer set with MTU 16 takes
fine but panics on the first claim; the one-descriptor demo ring never
panics. -/
theorem count_zero_claim_panics_witness :
    ((16 : Nat) % 16 = 0 ∧
      ((ioBuffersNew 0 16).isSome = true ∧
        (txTake 0 16 0).ring.length = 0 ∧
        (txTake 0 16 0).index = 0 ∧
        (rxTake 0 16 0).index = 0 ∧
        txNextToken (txTake 0 16 0) = .panicked ∧
        rxNextToken (rxTake 0 16 0) = .panicked)) ∧
    (1 ≤ txDemo.ring.length ∧ txDemo.index < txDemo.ring.length ∧
      nextImpl txCheck txDemo ≠ .panicked) :=
  ⟨⟨by decide, count_zero_claim_panics.1 16 0 (by decide)⟩,
   ⟨by decide, by decide,
    count_zero_claim_panics.2 TxBD txCheck txDemo (by decide) (by decide)⟩⟩
